import Mathlib

/-!
Verification development for the Google Chat provider adapter
(account resolution, message normalization, policy evaluation,
webhook handling and outbound text chunking).

JavaScript strings are modelled as `List Char` (one entry per code
unit); all concrete inputs appearing below are ASCII, where this
model coincides with UTF-16 semantics.
-/

/-- Shorthand turning a Lean string literal into the `List Char` model
of a JavaScript string. -/
def str (s : String) : List Char := s.toList

/-- Whitespace predicate used by JavaScript `trim`/`trimStart`
(ECMA-262 WhiteSpace plus LineTerminator code points). -/
def isJSWhitespace (c : Char) : Bool :=
  c.val == 0x9 || c.val == 0xA || c.val == 0xB || c.val == 0xC ||
  c.val == 0xD || c.val == 0x20 || c.val == 0xA0 || c.val == 0x1680 ||
  (0x2000 ≤ c.val && c.val ≤ 0x200A) || c.val == 0x2028 || c.val == 0x2029 ||
  c.val == 0x202F || c.val == 0x205F || c.val == 0x3000 || c.val == 0xFEFF

/-- JavaScript `String.prototype.trimStart`. -/
def jsTrimStart (s : List Char) : List Char := s.dropWhile isJSWhitespace

/-- JavaScript `String.prototype.trimEnd`. -/
def jsTrimEnd (s : List Char) : List Char :=
  ((s.reverse).dropWhile isJSWhitespace).reverse

/-- JavaScript `String.prototype.trim`. -/
def jsTrim (s : List Char) : List Char := jsTrimStart (jsTrimEnd s)

/-- JavaScript truthy-or on an optional string value:
`a || d` where `a` may be `undefined` or the empty string. -/
def jsOr (a : Option (List Char)) (d : List Char) : List Char :=
  match a with
  | some s => if s = [] then d else s
  | none => d

/-- JavaScript `String.prototype.replace(pat, "")` with a string
pattern: removes the first occurrence of `pat`, if any. -/
def replaceFirst (pat : List Char) : List Char → List Char
  | [] => []
  | x :: xs =>
    if pat.isPrefixOf (x :: xs) then (x :: xs).drop pat.length
    else x :: replaceFirst pat xs

/-- JavaScript `String.prototype.lastIndexOf(c, fromIndex)` for a
one-character search string: index of the last occurrence of `c` at a
position ≤ `fromIndex`, or `none` (JS: `-1`). -/
def jsLastIndexOf (c : Char) : List Char → Nat → Option Nat
  | [], _ => none
  | x :: xs, n =>
    (if n = 0 then none else (jsLastIndexOf c xs (n - 1)).map (· + 1)) <|>
      (if x = c then some 0 else none)

/-! ## Raw Google Chat event payloads

Runtime JSON payloads may lack any field, so every field is an
`Option` regardless of the TypeScript declarations in
`src/googlechat/types.ts`. -/

/-- Raw `event.user` object. -/
structure RawUser where
  name : Option (List Char)
  displayName : Option (List Char)
  email : Option (List Char)
  deriving DecidableEq, Repr

/-- Raw `message.sender` object. -/
structure RawSender where
  name : Option (List Char)
  displayName : Option (List Char)
  email : Option (List Char)
  type : Option (List Char)
  deriving DecidableEq, Repr

/-- Raw space object (`message.space` or `event.space`). -/
structure RawSpace where
  name : Option (List Char)
  type : Option (List Char)
  displayName : Option (List Char)
  deriving DecidableEq, Repr

/-- Raw `message.thread` object. -/
structure RawThread where
  name : Option (List Char)
  deriving DecidableEq, Repr

/-- Raw `message.slashCommand` object. -/
structure RawSlashCommand where
  commandId : Option (List Char)
  deriving DecidableEq, Repr

/-- Raw `event.message` object. -/
structure RawMessage where
  name : Option (List Char)
  sender : Option RawSender
  createTime : Option (List Char)
  text : Option (List Char)
  space : Option RawSpace
  thread : Option RawThread
  argumentText : Option (List Char)
  slashCommand : Option RawSlashCommand
  deriving DecidableEq, Repr

/-- Raw Google Chat event envelope (`GoogleChatEvent`). -/
structure RawEvent where
  type : Option (List Char)
  eventTime : Option (List Char)
  message : Option RawMessage
  user : Option RawUser
  space : Option RawSpace
  deriving DecidableEq, Repr

/-! ## Canonical (normalized) message -/

/-- Chat type of a canonical message. -/
inductive ChatType where
  | dm
  | group
  deriving DecidableEq, Repr

/-- Sender part of `NormalizedGoogleChatMessage`. -/
structure NGSender where
  id : List Char
  name : Option (List Char)
  email : Option (List Char)
  deriving DecidableEq, Repr

/-- Chat part of `NormalizedGoogleChatMessage`. -/
structure NGChat where
  id : List Char
  name : List Char
  type : ChatType
  deriving DecidableEq, Repr

/-- Thread part of `NormalizedGoogleChatMessage`. -/
structure NGThread where
  id : Option (List Char)
  deriving DecidableEq, Repr

/-- Content part of `NormalizedGoogleChatMessage`. -/
structure NGContent where
  text : List Char
  deriving DecidableEq, Repr

/-- Canonical message produced by the normalizer
(`NormalizedGoogleChatMessage` of `monitor.ts` / `webhook-server.ts`). -/
structure NormalizedGoogleChatMessage where
  provider : List Char
  accountId : List Char
  messageId : Option (List Char)
  timestamp : Int
  sender : NGSender
  chat : NGChat
  thread : Option NGThread
  content : NGContent
  raw : RawEvent
  deriving DecidableEq, Repr

/-- Runtime error raised by dereferencing an absent field
(JavaScript `TypeError`). -/
inductive JsError where
  | typeError
  deriving DecidableEq, Repr

/-- The pull-transport normalizer, translated from `normalizeMessage`
in the Pub/Sub monitor module. `parseTime` stands for the JavaScript
library call `new Date(createTime).getTime()`, shared by both
transports. Each access to a field of a possibly-absent object is a
`match` whose `none` arm raises the JavaScript `TypeError`. -/
def normalizeMessagePull (parseTime : Option (List Char) → Int)
    (event : RawEvent) (accountId : List Char) :
    Except JsError (Option NormalizedGoogleChatMessage) :=
  if event.type != some (str "MESSAGE") || event.message.isNone then
    Except.ok none
  else
    match event.message with
    | none => Except.ok none
    | some msg =>
      match msg.sender with
      | none => Except.error JsError.typeError
      | some sender =>
        if sender.type == some (str "BOT") then Except.ok none
        else
          match msg.space with
          | none => Except.error JsError.typeError
          | some space =>
            match space.name with
            | none => Except.error JsError.typeError
            | some spaceResName =>
              let spaceId := replaceFirst (str "spaces/") spaceResName
              let isDM := space.type == some (str "DM")
              match sender.name with
              | none => Except.error JsError.typeError
              | some senderResName =>
                Except.ok (some {
                  provider := str "googlechat"
                  accountId := accountId
                  messageId := msg.name
                  timestamp := parseTime msg.createTime
                  sender := {
                    id := replaceFirst (str "users/") senderResName
                    name := sender.displayName
                    email := sender.email
                  }
                  chat := {
                    id := spaceId
                    name := jsOr space.displayName spaceId
                    type := if isDM then ChatType.dm else ChatType.group
                  }
                  thread := msg.thread.map (fun t => { id := t.name })
                  content := { text := jsOr msg.argumentText (jsOr msg.text []) }
                  raw := event
                })

/-- The push-transport (webhook) normalizer, translated from
`normalizeMessage` in `webhook-server.ts`. `parseTime` stands for the
JavaScript library call `new Date(createTime).getTime()`, shared by
both transports. Each access to a field of a possibly-absent object
is a `match` whose `none` arm raises the JavaScript `TypeError`. -/
def normalizeMessageWebhook (parseTime : Option (List Char) → Int)
    (event : RawEvent) (accountId : List Char) :
    Except JsError (Option NormalizedGoogleChatMessage) :=
  if event.type != some (str "MESSAGE") || event.message.isNone then
    Except.ok none
  else
    match event.message with
    | none => Except.ok none
    | some msg =>
      match msg.sender with
      | none => Except.error JsError.typeError
      | some sender =>
        if sender.type == some (str "BOT") then Except.ok none
        else
          match msg.space with
          | none => Except.error JsError.typeError
          | some space =>
            match space.name with
            | none => Except.error JsError.typeError
            | some spaceResName =>
              let spaceId := replaceFirst (str "spaces/") spaceResName
              let isDM := space.type == some (str "DM")
              match sender.name with
              | none => Except.error JsError.typeError
              | some senderResName =>
                Except.ok (some {
                  provider := str "googlechat"
                  accountId := accountId
                  messageId := msg.name
                  timestamp := parseTime msg.createTime
                  sender := {
                    id := replaceFirst (str "users/") senderResName
                    name := sender.displayName
                    email := sender.email
                  }
                  chat := {
                    id := spaceId
                    name := jsOr space.displayName spaceId
                    type := if isDM then ChatType.dm else ChatType.group
                  }
                  thread := msg.thread.map (fun t => { id := t.name })
                  content := { text := jsOr msg.argumentText (jsOr msg.text []) }
                  raw := event
                })

/-! ## Access policy and account configuration -/

/-- Access policy kind (`DmPolicy` / `GroupPolicy` of the config
types; the spec's `AccessPolicy`): `disabled`, `open` (here `openP`,
since `open` is a Lean keyword), `allowlist`, `pairing`. -/
inductive AccessPolicy where
  | disabled
  | openP
  | allowlist
  | pairing
  deriving DecidableEq, Repr

/-- Per-account Google Chat configuration
(`GoogleChatAccountConfig` in `types.ts`); every field optional. -/
structure GoogleChatAccountConfig where
  name : Option (List Char)
  enabled : Option Bool
  projectId : Option (List Char)
  subscriptionName : Option (List Char)
  credentialsPath : Option (List Char)
  dmPolicy : Option AccessPolicy
  allowFrom : Option (List (List Char))
  spacePolicy : Option AccessPolicy
  allowSpaces : Option (List (List Char))
  historyLimit : Option Int
  dmHistoryLimit : Option Int
  textChunkLimit : Option Int
  messagePrefix : Option (List Char)
  deriving DecidableEq, Repr

/-- The account config with every field absent (JS `{}`). -/
def emptyAccountConfig : GoogleChatAccountConfig :=
  { name := none, enabled := none, projectId := none,
    subscriptionName := none, credentialsPath := none, dmPolicy := none,
    allowFrom := none, spacePolicy := none, allowSpaces := none,
    historyLimit := none, dmHistoryLimit := none, textChunkLimit := none,
    messagePrefix := none }

/-- Provider-wide Google Chat configuration (`GoogleChatConfig`):
base account fields plus an optional per-account override map,
modelled as an association list. -/
structure GoogleChatConfig extends GoogleChatAccountConfig where
  accounts : Option (List (List Char × GoogleChatAccountConfig))
  deriving DecidableEq, Repr

/-- The part of `ClawdbotConfig` the adapter reads. -/
structure ClawdbotConfig where
  googlechat : Option GoogleChatConfig
  deriving DecidableEq, Repr

/-- Resolved account (`ResolvedGoogleChatAccount` in `accounts.ts`). -/
structure ResolvedGoogleChatAccount where
  accountId : List Char
  enabled : Bool
  name : Option (List Char)
  projectId : List Char
  subscriptionName : List Char
  credentialsPath : Option (List Char)
  config : GoogleChatAccountConfig
  deriving DecidableEq, Repr

/-! ## Policy engine (`checkMessagePolicy` in the monitor module) -/

/-- The policy kind selected by `checkMessagePolicy`: direct messages
use `dmPolicy ?? "pairing"`, group messages `spacePolicy ??
"disabled"`. -/
def policyFor (message : NormalizedGoogleChatMessage)
    (account : ResolvedGoogleChatAccount) : AccessPolicy :=
  match message.chat.type with
  | ChatType.dm => account.config.dmPolicy.getD AccessPolicy.pairing
  | ChatType.group => account.config.spacePolicy.getD AccessPolicy.disabled

/-- Policy evaluation, translated from `checkMessagePolicy`. -/
def checkMessagePolicy (message : NormalizedGoogleChatMessage)
    (account : ResolvedGoogleChatAccount) : Bool :=
  match policyFor message account with
  | AccessPolicy.disabled => false
  | AccessPolicy.openP => true
  | AccessPolicy.allowlist =>
    match message.chat.type with
    | ChatType.dm =>
      (account.config.allowFrom.getD []).contains
        (message.sender.email.getD [])
    | ChatType.group =>
      (account.config.allowSpaces.getD []).contains message.chat.id
  | AccessPolicy.pairing => false

/-! ## Account registry (`accounts.ts`) -/

/-- Modelled from the spec: the synthetic default account identifier
(`DEFAULT_ACCOUNT_ID` lives in `routing/session-key.ts`, which is not
part of this module set). -/
def DEFAULT_ACCOUNT_ID : List Char := str "default"

/-- Modelled from the spec: `normalizeAccountId` (also from
`routing/session-key.ts`) normalizes a possibly-absent account id to
the default identifier. -/
def normalizeAccountId : Option (List Char) → List Char
  | some accountId => accountId
  | none => DEFAULT_ACCOUNT_ID

/-- Translated from `listConfiguredAccountIds`: keys of the
per-account map, with empty keys filtered out (`filter(Boolean)`). -/
def listConfiguredAccountIds (cfg : ClawdbotConfig) : List (List Char) :=
  match cfg.googlechat with
  | none => []
  | some g =>
    match g.accounts with
    | none => []
    | some accounts => (accounts.map Prod.fst).filter (fun k => k ≠ [])

/-- Translated from `resolveAccountConfig`: the per-account override
entry, if any. -/
def resolveAccountConfig (cfg : ClawdbotConfig) (accountId : List Char) :
    Option GoogleChatAccountConfig :=
  match cfg.googlechat with
  | none => none
  | some g =>
    match g.accounts with
    | none => none
    | some accounts => accounts.lookup accountId

/-- JavaScript object-spread merge `{ ...base, ...account }` on the
typed account config: account fields win when present. -/
def spreadMerge (base account : GoogleChatAccountConfig) :
    GoogleChatAccountConfig :=
  { name := account.name <|> base.name
    enabled := account.enabled <|> base.enabled
    projectId := account.projectId <|> base.projectId
    subscriptionName := account.subscriptionName <|> base.subscriptionName
    credentialsPath := account.credentialsPath <|> base.credentialsPath
    dmPolicy := account.dmPolicy <|> base.dmPolicy
    allowFrom := account.allowFrom <|> base.allowFrom
    spacePolicy := account.spacePolicy <|> base.spacePolicy
    allowSpaces := account.allowSpaces <|> base.allowSpaces
    historyLimit := account.historyLimit <|> base.historyLimit
    dmHistoryLimit := account.dmHistoryLimit <|> base.dmHistoryLimit
    textChunkLimit := account.textChunkLimit <|> base.textChunkLimit
    messagePrefix := account.messagePrefix <|> base.messagePrefix }

/-- Translated from `mergeGoogleChatAccountConfig`: base fields of the
provider section (accounts map stripped) overridden field-by-field by
the account entry. -/
def mergeGoogleChatAccountConfig (cfg : ClawdbotConfig)
    (accountId : List Char) : GoogleChatAccountConfig :=
  let base :=
    match cfg.googlechat with
    | none => emptyAccountConfig
    | some g => g.toGoogleChatAccountConfig
  let account := (resolveAccountConfig cfg accountId).getD emptyAccountConfig
  spreadMerge base account

/-- Translated from `resolveGoogleChatAccount`. -/
def resolveGoogleChatAccount (cfg : ClawdbotConfig)
    (accountId : Option (List Char)) : ResolvedGoogleChatAccount :=
  let baseEnabled := (cfg.googlechat.bind
    (fun g => g.toGoogleChatAccountConfig.enabled)) != some false
  let normalized := normalizeAccountId accountId
  let merged := mergeGoogleChatAccountConfig cfg normalized
  let accountEnabled := merged.enabled != some false
  { accountId := normalized
    enabled := baseEnabled && accountEnabled
    name := merged.name.bind (fun n =>
      let t := jsTrim n
      if t = [] then none else some t)
    projectId := merged.projectId.getD []
    subscriptionName := merged.subscriptionName.getD []
    credentialsPath := merged.credentialsPath
    config := merged }

/-- Translated from the plugin's `isConfigured`: project id and
subscription id both non-empty after trimming. -/
def isConfigured (account : ResolvedGoogleChatAccount) : Bool :=
  (jsTrim account.projectId != []) && (jsTrim account.subscriptionName != [])

/-! ## Outbound text chunking (`chunkGoogleChatText` in `send.ts`) -/

/-- The split index one loop iteration of `chunkGoogleChatText`
chooses when `remaining.length > maxLength`: last newline at an index
≤ `maxLength`, rejected when below `maxLength / 2` in favour of the
last space, itself rejected the same way in favour of a hard split at
`maxLength`. -/
def computeSplitAt (maxLength : Nat) (remaining : List Char) : Nat :=
  let s1 := jsLastIndexOf '\n' remaining maxLength
  let s2 :=
    match s1 with
    | some i =>
      if 2 * i < maxLength then jsLastIndexOf ' ' remaining maxLength
      else some i
    | none => jsLastIndexOf ' ' remaining maxLength
  match s2 with
  | some i => if 2 * i < maxLength then maxLength else i
  | none => maxLength

/-- The `while` loop of `chunkGoogleChatText`, with explicit fuel
(the JavaScript loop has no structural bound; fuel exhaustion returns
`none`, and the top-level entry supplies enough fuel whenever the
loop terminates). -/
def chunkLoop (maxLength : Nat) (fuel : Nat) (remaining : List Char) :
    Option (List (List Char)) :=
  if remaining.length = 0 then some []
  else if remaining.length ≤ maxLength then some [remaining]
  else
    match fuel with
    | 0 => none
    | fuel' + 1 =>
      let s := computeSplitAt maxLength remaining
      (chunkLoop maxLength fuel' (jsTrimStart (remaining.drop s))).map
        (fun cs => remaining.take s :: cs)

/-- Translated from `chunkGoogleChatText` (the source defaults
`maxLength` to 4000; callers below pass it explicitly). -/
def chunkGoogleChatText (text : List Char) (maxLength : Nat) :
    Option (List (List Char)) :=
  if text.length ≤ maxLength then some [text]
  else chunkLoop maxLength (text.length + 1) text

/-- Losslessness statement for chunking: the original text is the
chunks in order, each followed by the (possibly empty) run of
whitespace trimmed at that chunk boundary. -/
def Reconstructs : List Char → List (List Char) → Prop
  | text, [] => text = []
  | text, c :: cs =>
    ∃ w rest, (∀ x ∈ w, isJSWhitespace x = true) ∧
      text = c ++ w ++ rest ∧ Reconstructs rest cs

/-! ## Webhook request handling (`startGoogleChatWebhookServer`) -/

/-- JSON body of a webhook HTTP response. -/
inductive WebhookBody where
  | jsonText (text : List Char)
  | jsonEmpty
  deriving DecidableEq, Repr

/-- Webhook HTTP response outcome: a 200 JSON body, or the generic
500 produced by the surrounding `catch`. -/
inductive WebhookResponse where
  | ok (body : WebhookBody)
  | serverError
  deriving DecidableEq, Repr

/-- The fixed welcome text the webhook returns for `ADDED_TO_SPACE`
events. -/
def welcomeText : List Char :=
  str "Hello! I" ++ [Char.ofNat 39] ++
    str "m Clawdbot, your personal AI assistant. Send me a message to get started!"

/-- The echo reply the webhook returns for a normalized message. -/
def echoText (bodyText : List Char) : List Char :=
  str "Got your message! (Clawdbot Google Chat integration is working)\n\nYou said: \"" ++
    bodyText ++ str "\""

/-- The `POST /webhook/googlechat` handler, translated from
`startGoogleChatWebhookServer`: value is the HTTP response together
with the canonical message produced from the event (if any). -/
def handleWebhookPost (parseTime : Option (List Char) → Int)
    (accountId : List Char) (event : RawEvent) :
    WebhookResponse × Option NormalizedGoogleChatMessage :=
  if event.type == some (str "ADDED_TO_SPACE") then
    (WebhookResponse.ok (WebhookBody.jsonText welcomeText), none)
  else if event.type == some (str "MESSAGE") then
    match normalizeMessageWebhook parseTime event accountId with
    | Except.error _ => (WebhookResponse.serverError, none)
    | Except.ok (some normalized) =>
      (WebhookResponse.ok (WebhookBody.jsonText (echoText normalized.content.text)),
        some normalized)
    | Except.ok none => (WebhookResponse.ok WebhookBody.jsonEmpty, none)
  else (WebhookResponse.ok WebhookBody.jsonEmpty, none)

/-- Well-formedness condition on raw events under which normalization
is total: a `MESSAGE` event's payload must carry its sender and space
objects together with their resource names. -/
def wellFormedEvent (e : RawEvent) : Bool :=
  e.type != some (str "MESSAGE") ||
    match e.message with
    | none => true
    | some m =>
      (match m.sender with
       | some s => s.name.isSome
       | none => false) &&
      (match m.space with
       | some sp => sp.name.isSome
       | none => false)

/-- Case-normalization and trimming of an email address, following
the spec's words (`case-normalized, trimmed`); used only to state
claims about the spec's allowlist comparison, which the source does
not perform. -/
def specNormalizeEmail (s : List Char) : List Char :=
  (jsTrim s).map Char.toLower

/-! ## Concrete inputs used by witnesses and counterexamples -/

/-- A raw event with every field absent. -/
def emptyRawEvent : RawEvent :=
  { type := none, eventTime := none, message := none, user := none,
    space := none }

/-- A canonical message with the given chat type and sender email,
used to exercise the policy engine. -/
def sampleMessage (ct : ChatType) (email : Option (List Char)) :
    NormalizedGoogleChatMessage :=
  { provider := str "googlechat"
    accountId := DEFAULT_ACCOUNT_ID
    messageId := some (str "spaces/space1/messages/m1")
    timestamp := 0
    sender := { id := str "u1", name := some (str "User One"), email := email }
    chat := { id := str "space1", name := str "space1", type := ct }
    thread := none
    content := { text := str "hi" }
    raw := emptyRawEvent }

/-- A resolved account around the given per-account config. -/
def sampleAccount (c : GoogleChatAccountConfig) : ResolvedGoogleChatAccount :=
  { accountId := DEFAULT_ACCOUNT_ID
    enabled := true
    name := none
    projectId := str "proj"
    subscriptionName := str "sub"
    credentialsPath := none
    config := c }

/-- Account whose DM policy is `allowlist` with
`allowFrom = ["a@x.com"]`. -/
def allowAcct : ResolvedGoogleChatAccount :=
  sampleAccount { emptyAccountConfig with
    dmPolicy := some AccessPolicy.allowlist
    allowFrom := some [str "a@x.com"] }

/-- Direct message from sender email `a@x.com`. -/
def allowMsg : NormalizedGoogleChatMessage :=
  sampleMessage ChatType.dm (some (str "a@x.com"))

/-- Direct message from sender email `A@x.com` (upper-case variant of
an allowlisted address). -/
def upperEmailMsg : NormalizedGoogleChatMessage :=
  sampleMessage ChatType.dm (some (str "A@x.com"))

/-- Direct message whose sender has no email. -/
def noEmailMsg : NormalizedGoogleChatMessage :=
  sampleMessage ChatType.dm none

/-- Account whose DM policy is `allowlist` with an allowlist holding
only the empty string. -/
def emptyStrAllowAcct : ResolvedGoogleChatAccount :=
  sampleAccount { emptyAccountConfig with
    dmPolicy := some AccessPolicy.allowlist
    allowFrom := some [[]] }

/-- Account with DM policy `open` (used to exercise kind selection). -/
def openAcct : ResolvedGoogleChatAccount :=
  sampleAccount { emptyAccountConfig with dmPolicy := some AccessPolicy.openP }

/-- Message payload with every field absent. -/
def emptyRawMessage : RawMessage :=
  { name := none, sender := none, createTime := none, text := none,
    space := none, thread := none, argumentText := none,
    slashCommand := none }

/-- `MESSAGE` event whose payload is present but carries no sender,
space or any other field. -/
def badEvent : RawEvent :=
  { type := some (str "MESSAGE")
    eventTime := none
    message := some emptyRawMessage
    user := none
    space := none }

/-- A fully populated human `MESSAGE` event. -/
def goodEvent : RawEvent :=
  { type := some (str "MESSAGE")
    eventTime := some (str "2024-01-01T00:00:00Z")
    message := some { emptyRawMessage with
      name := some (str "spaces/space1/messages/m1")
      sender := some { name := some (str "users/u1")
                       displayName := some (str "User One")
                       email := some (str "a@x.com")
                       type := some (str "HUMAN") }
      createTime := some (str "2024-01-01T00:00:00Z")
      text := some (str "hello")
      space := some { name := some (str "spaces/space1")
                      type := some (str "DM")
                      displayName := none } }
    user := none
    space := none }

/-- `ADDED_TO_SPACE` event with user display name `Ann`. -/
def evtAnn : RawEvent :=
  { type := some (str "ADDED_TO_SPACE")
    eventTime := none
    message := none
    user := some { name := none, displayName := some (str "Ann"), email := none }
    space := none }

/-- Configuration with no `googlechat` section at all. -/
def cfgEmpty : ClawdbotConfig := { googlechat := none }

/-- The chunking example input:
`"line one\nline two\n" + "x".repeat(5000)`. -/
def c6Input : List Char :=
  str "line one\nline two\n" ++ List.replicate 5000 'x'

/-- First chunk the code actually produces on `c6Input` with limit
4000: a hard split at offset 4000. -/
def c6Chunk1 : List Char :=
  str "line one\nline two\n" ++ List.replicate 3982 'x'

/-- Second chunk the code actually produces on `c6Input`. -/
def c6Chunk2 : List Char := List.replicate 1018 'x'

/-! ## Helper lemmas -/

set_option maxRecDepth 10000

theorem policyFor_dm (m : NormalizedGoogleChatMessage)
    (a : ResolvedGoogleChatAccount) (h : m.chat.type = ChatType.dm) :
    policyFor m a = a.config.dmPolicy.getD AccessPolicy.pairing := by
  unfold policyFor
  rw [h]

theorem policyFor_group (m : NormalizedGoogleChatMessage)
    (a : ResolvedGoogleChatAccount) (h : m.chat.type = ChatType.group) :
    policyFor m a = a.config.spacePolicy.getD AccessPolicy.disabled := by
  unfold policyFor
  rw [h]

theorem checkMessagePolicy_eq_match (m : NormalizedGoogleChatMessage)
    (a : ResolvedGoogleChatAccount) :
    checkMessagePolicy m a =
      match policyFor m a with
      | AccessPolicy.disabled => false
      | AccessPolicy.openP => true
      | AccessPolicy.allowlist =>
        match m.chat.type with
        | ChatType.dm =>
          (a.config.allowFrom.getD []).contains (m.sender.email.getD [])
        | ChatType.group =>
          (a.config.allowSpaces.getD []).contains m.chat.id
      | AccessPolicy.pairing => false := rfl

/-! ## Claim theorems: policy engine -/

/-- C2. Policy evaluation selects the kind from the chat type (DM
policy defaulting to `pairing` for direct messages, group policy
defaulting to `disabled` for group messages); `disabled` denies every
message, `open` allows every message, and `pairing` (pending the
pairing-store integration) denies every message. -/
theorem checkMessagePolicy_kind_selection (m : NormalizedGoogleChatMessage)
    (a : ResolvedGoogleChatAccount) :
    (m.chat.type = ChatType.dm →
      policyFor m a = a.config.dmPolicy.getD AccessPolicy.pairing) ∧
    (m.chat.type = ChatType.group →
      policyFor m a = a.config.spacePolicy.getD AccessPolicy.disabled) ∧
    (policyFor m a = AccessPolicy.disabled → checkMessagePolicy m a = false) ∧
    (policyFor m a = AccessPolicy.openP → checkMessagePolicy m a = true) ∧
    (policyFor m a = AccessPolicy.pairing → checkMessagePolicy m a = false) := by
  refine ⟨policyFor_dm m a, policyFor_group m a, ?_, ?_, ?_⟩ <;>
    intro h <;> rw [checkMessagePolicy_eq_match, h]

/-- C2 witness: a direct message under an account with DM policy
`open` is allowed. -/
theorem checkMessagePolicy_kind_selection_witness :
    checkMessagePolicy (sampleMessage ChatType.dm none) openAcct = true :=
  (checkMessagePolicy_kind_selection (sampleMessage ChatType.dm none)
    openAcct).2.2.2.1 (by decide)

/-- C1 (amended). Under the `allowlist` kind the decision compares
the sender email (exactly as received, the empty string when absent)
against the DM allowlist for direct messages, and the chat id against
the space allowlist for group messages; no case-normalization or
trimming is applied to the email. -/
theorem checkMessagePolicy_allowlist_exact (m : NormalizedGoogleChatMessage)
    (a : ResolvedGoogleChatAccount)
    (h : policyFor m a = AccessPolicy.allowlist) :
    (m.chat.type = ChatType.dm →
      (checkMessagePolicy m a = true ↔
        m.sender.email.getD [] ∈ a.config.allowFrom.getD [])) ∧
    (m.chat.type = ChatType.group →
      (checkMessagePolicy m a = true ↔
        m.chat.id ∈ a.config.allowSpaces.getD [])) := by
  rw [checkMessagePolicy_eq_match, h]
  constructor <;> intro hc <;> rw [hc] <;> exact List.elem_iff

/-- C1 witness: the spec's own example, a direct message from
`a@x.com` with `allowFrom = ["a@x.com"]`, is allowed. -/
theorem checkMessagePolicy_allowlist_exact_witness :
    checkMessagePolicy allowMsg allowAcct = true :=
  ((checkMessagePolicy_allowlist_exact allowMsg allowAcct (by decide)).1
    (by decide)).mpr (by decide)

/-- C1 counterexample: a direct message from `A@x.com` whose
case-normalized, trimmed form `a@x.com` is in the allowlist is
nevertheless denied, because the code compares the raw email. -/
theorem checkMessagePolicy_allowlist_case_cex :
    policyFor upperEmailMsg allowAcct = AccessPolicy.allowlist ∧
    specNormalizeEmail (upperEmailMsg.sender.email.getD []) ∈
      allowAcct.config.allowFrom.getD [] ∧
    checkMessagePolicy upperEmailMsg allowAcct = false := by decide

/-- C10. Under the `allowlist` DM policy a direct message whose
sender has no email is evaluated as the empty string: allowed iff the
DM allowlist contains the empty string. -/
theorem checkMessagePolicy_missing_email (m : NormalizedGoogleChatMessage)
    (a : ResolvedGoogleChatAccount)
    (h1 : m.chat.type = ChatType.dm)
    (h2 : a.config.dmPolicy = some AccessPolicy.allowlist)
    (h3 : m.sender.email = none) :
    (checkMessagePolicy m a = true ↔
      ([] : List Char) ∈ a.config.allowFrom.getD []) := by
  have hp : policyFor m a = AccessPolicy.allowlist := by
    rw [policyFor_dm m a h1, h2]
    rfl
  rw [checkMessagePolicy_eq_match, hp, h1, h3]
  exact List.elem_iff

/-- C10 witness: with `allowFrom = [""]` a DM whose sender lacks an
email is allowed. -/
theorem checkMessagePolicy_missing_email_witness :
    checkMessagePolicy noEmailMsg emptyStrAllowAcct = true :=
  (checkMessagePolicy_missing_email noEmailMsg emptyStrAllowAcct
    (by decide) (by decide) (by decide)).mpr (by decide)

/-! ## Claim theorems: normalizer -/

/-- C3. The pull-transport and push-transport normalizers are
extensionally equal: for every shared time-parsing function, raw
event and account id they produce the same result, including raising
and producing `none` on the same events. -/
theorem normalizeMessage_transport_equiv :
    ∀ (parseTime : Option (List Char) → Int) (event : RawEvent)
      (accountId : List Char),
      normalizeMessagePull parseTime event accountId =
        normalizeMessageWebhook parseTime event accountId :=
  fun _ _ _ => rfl

/-- C4 (amended). Normalization is total on events whose `MESSAGE`
payload carries sender and space objects with their resource names:
it then returns the canonical message or `none` and never raises. An
event of type `MESSAGE` whose payload lacks the sender or space
raises instead (see the counterexample). -/
theorem normalizeMessage_wellFormed_total
    (parseTime : Option (List Char) → Int) (e : RawEvent)
    (accountId : List Char) (h : wellFormedEvent e = true) :
    ∃ r, normalizeMessagePull parseTime e accountId = Except.ok r ∧
      normalizeMessageWebhook parseTime e accountId = Except.ok r := by
  have heq : normalizeMessagePull parseTime e accountId =
      normalizeMessageWebhook parseTime e accountId := rfl
  suffices hp : ∃ r, normalizeMessagePull parseTime e accountId = Except.ok r by
    obtain ⟨r, hr⟩ := hp
    exact ⟨r, hr, heq ▸ hr⟩
  unfold normalizeMessagePull
  by_cases htop : (e.type != some (str "MESSAGE") || e.message.isNone) = true
  · rw [if_pos htop]
    exact ⟨none, rfl⟩
  · rw [if_neg htop]
    rw [Bool.or_eq_true, not_or, Bool.not_eq_true, Bool.not_eq_true,
      bne_eq_false_iff_eq, Option.isNone_eq_false_iff, Option.isSome_iff_exists]
      at htop
    obtain ⟨hty, msg, hmsg⟩ := htop
    unfold wellFormedEvent at h
    rw [Bool.or_eq_true] at h
    rcases h with h | h
    · rw [bne_iff_ne] at h
      exact absurd hty h
    · simp only [hmsg] at h ⊢
      rcases hs : msg.sender with _ | sender
      · simp [hs] at h
      · rcases hsp : msg.space with _ | space
        · simp [hs, hsp] at h
        · simp only [hs, hsp, Bool.and_eq_true, Option.isSome_iff_exists] at h
          obtain ⟨⟨sn, hsn⟩, spn, hspn⟩ := h
          simp only [hs, hsp, hsn, hspn]
          by_cases hbot : (sender.type == some (str "BOT")) = true
          · simp only [hbot, if_true]
            exact ⟨none, rfl⟩
          · simp only [Bool.not_eq_true] at hbot
            simp only [hbot, Bool.false_eq_true, if_false]
            exact ⟨_, rfl⟩

/-- C4 witness: a well-formed human `MESSAGE` event normalizes
without raising under both transports. -/
theorem normalizeMessage_wellFormed_total_witness :
    ∃ r, normalizeMessagePull (fun _ => 0) goodEvent DEFAULT_ACCOUNT_ID =
        Except.ok r ∧
      normalizeMessageWebhook (fun _ => 0) goodEvent DEFAULT_ACCOUNT_ID =
        Except.ok r :=
  normalizeMessage_wellFormed_total (fun _ => 0) goodEvent DEFAULT_ACCOUNT_ID
    (by decide)

/-- C4 counterexample: an event of type `MESSAGE` whose payload is
present but lacks the sender and space fields makes both normalizers
raise a `TypeError` instead of returning `null`. -/
theorem normalizeMessage_raises_cex :
    normalizeMessagePull (fun _ => 0) badEvent (str "acct") =
        Except.error JsError.typeError ∧
      normalizeMessageWebhook (fun _ => 0) badEvent (str "acct") =
        Except.error JsError.typeError :=
  ⟨rfl, rfl⟩

/-! ## Claim theorems: webhook transport -/

/-- C7 (amended). For every `ADDED_TO_SPACE` event, whatever its user
object, the webhook responds with the fixed welcome text (which does
not mention the user display name, see the counterexample) and
produces no canonical message. -/
theorem webhook_added_to_space_fixed_welcome
    (parseTime : Option (List Char) → Int) (accountId : List Char)
    (e : RawEvent) (h : e.type = some (str "ADDED_TO_SPACE")) :
    handleWebhookPost parseTime accountId e =
      (WebhookResponse.ok (WebhookBody.jsonText welcomeText), none) := by
  unfold handleWebhookPost
  rw [h]
  rfl

/-- C7 witness: the event `{type: ADDED_TO_SPACE, user: {displayName:
Ann}}` yields the fixed welcome response and no canonical message. -/
theorem webhook_added_to_space_fixed_welcome_witness :
    handleWebhookPost (fun _ => 0) DEFAULT_ACCOUNT_ID evtAnn =
      (WebhookResponse.ok (WebhookBody.jsonText welcomeText), none) :=
  webhook_added_to_space_fixed_welcome (fun _ => 0) DEFAULT_ACCOUNT_ID evtAnn
    rfl

/-- C7 counterexample: on the `ADDED_TO_SPACE` event with user
display name `Ann`, the response is the fixed welcome text, and that
text does not mention `Ann` anywhere. -/
theorem webhook_added_to_space_cex :
    handleWebhookPost (fun _ => 0) DEFAULT_ACCOUNT_ID evtAnn =
      (WebhookResponse.ok (WebhookBody.jsonText welcomeText), none) ∧
    ¬ (str "Ann") <:+: welcomeText := by
  constructor
  · rfl
  · decide

/-! ## Claim theorems: account registry -/

theorem lookup_none_of_keys_empty
    (accts : List (List Char × GoogleChatAccountConfig))
    (hk : ∀ p ∈ accts, p.1 = ([] : List Char)) :
    accts.lookup DEFAULT_ACCOUNT_ID = none := by
  induction accts with
  | nil => rfl
  | cons p ps ih =>
    obtain ⟨k, v⟩ := p
    have hk1 : k = [] := hk (k, v) (List.mem_cons_self _ _)
    subst hk1
    simp only [List.lookup]
    rw [show (DEFAULT_ACCOUNT_ID == ([] : List Char)) = false from by decide]
    exact ih (fun q hq => hk q (List.mem_cons_of_mem _ hq))

theorem spreadMerge_emptyAccount (b : GoogleChatAccountConfig) :
    spreadMerge b emptyAccountConfig = b := by
  simp [spreadMerge, emptyAccountConfig]

theorem resolveAccountConfig_none_of_no_accounts (cfg : ClawdbotConfig)
    (h : listConfiguredAccountIds cfg = []) :
    resolveAccountConfig cfg DEFAULT_ACCOUNT_ID = none := by
  rcases cfg with ⟨gc⟩
  rcases gc with _ | g
  · rfl
  · rcases g with ⟨gbase, gaccounts⟩
    rcases gaccounts with _ | accts
    · rfl
    · simp only [listConfiguredAccountIds, List.filter_eq_nil_iff] at h
      refine lookup_none_of_keys_empty accts (fun p hp => ?_)
      have := h p.1 (List.mem_map_of_mem Prod.fst hp)
      simpa using this

/-- C8 (amended). With no accounts configured, `resolveAccount`
returns an account carrying the synthetic default identifier; its
`enabled` flag is true exactly when the provider-level `enabled`
field is not `false`, and the account is usable exactly when the base
configuration's project id and subscription id are non-empty after
trimming (an empty configuration therefore yields an unusable
default account, see the counterexample). -/
theorem resolveAccount_default_amended (cfg : ClawdbotConfig)
    (h : listConfiguredAccountIds cfg = []) :
    (resolveGoogleChatAccount cfg none).accountId = DEFAULT_ACCOUNT_ID ∧
    ((resolveGoogleChatAccount cfg none).enabled = true ↔
      (cfg.googlechat.bind
        (fun g => g.toGoogleChatAccountConfig.enabled)) ≠ some false) ∧
    (isConfigured (resolveGoogleChatAccount cfg none) = true ↔
      (jsTrim ((cfg.googlechat.bind
          (fun g => g.toGoogleChatAccountConfig.projectId)).getD []) ≠ [] ∧
        jsTrim ((cfg.googlechat.bind
          (fun g => g.toGoogleChatAccountConfig.subscriptionName)).getD []) ≠ [])) := by
  have hrac := resolveAccountConfig_none_of_no_accounts cfg h
  have hmerge : mergeGoogleChatAccountConfig cfg DEFAULT_ACCOUNT_ID =
      (match cfg.googlechat with
       | none => emptyAccountConfig
       | some g => g.toGoogleChatAccountConfig) := by
    unfold mergeGoogleChatAccountConfig
    rw [hrac]
    exact spreadMerge_emptyAccount _
  rcases cfg with ⟨gc⟩
  rcases gc with _ | g
  · exact ⟨rfl, by decide, by decide⟩
  · simp only at hmerge
    refine ⟨rfl, ?_, ?_⟩
    · simp only [resolveGoogleChatAccount, normalizeAccountId, hmerge, Option.bind]
      rw [Bool.and_self]
      exact bne_iff_ne
    · simp only [resolveGoogleChatAccount, normalizeAccountId, hmerge, isConfigured,
        Option.bind]
      rw [Bool.and_eq_true]
      constructor
      · intro hh
        exact ⟨bne_iff_ne.mp hh.1, bne_iff_ne.mp hh.2⟩
      · intro hh
        exact ⟨bne_iff_ne.mpr hh.1, bne_iff_ne.mpr hh.2⟩

/-- C8 witness: the amended statement evaluated at the empty
configuration. -/
theorem resolveAccount_default_amended_witness :
    (resolveGoogleChatAccount cfgEmpty none).accountId = DEFAULT_ACCOUNT_ID ∧
    ((resolveGoogleChatAccount cfgEmpty none).enabled = true ↔
      (cfgEmpty.googlechat.bind
        (fun g => g.toGoogleChatAccountConfig.enabled)) ≠ some false) ∧
    (isConfigured (resolveGoogleChatAccount cfgEmpty none) = true ↔
      (jsTrim ((cfgEmpty.googlechat.bind
          (fun g => g.toGoogleChatAccountConfig.projectId)).getD []) ≠ [] ∧
        jsTrim ((cfgEmpty.googlechat.bind
          (fun g => g.toGoogleChatAccountConfig.subscriptionName)).getD []) ≠ [])) :=
  resolveAccount_default_amended cfgEmpty rfl

/-- C8 counterexample: the empty configuration has no accounts
configured, and `resolveAccount` returns the default account with
`enabled = true`, but that account is not usable (empty project and
subscription identifiers), contradicting the claim that the returned
account is always usable. -/
theorem resolveAccount_default_cex :
    listConfiguredAccountIds cfgEmpty = [] ∧
    (resolveGoogleChatAccount cfgEmpty none).enabled = true ∧
    isConfigured (resolveGoogleChatAccount cfgEmpty none) = false := by
  decide

/-! ## Claim theorems: outbound text chunking -/

theorem jsLastIndexOf_le (c : Char) :
    ∀ (s : List Char) (n i : Nat), jsLastIndexOf c s n = some i → i ≤ n := by
  intro s
  induction s with
  | nil =>
    intro n i h
    simp [jsLastIndexOf] at h
  | cons x xs ih =>
    intro n i h
    rw [jsLastIndexOf] at h
    rcases n with _ | m
    · rw [if_pos rfl, Option.none_orElse] at h
      by_cases hx : x = c
      · rw [if_pos hx] at h
        cases h
        omega
      · rw [if_neg hx] at h
        cases h
    · rw [if_neg (Nat.succ_ne_zero m), Nat.add_sub_cancel] at h
      rcases hr : jsLastIndexOf c xs m with _ | j
      · rw [hr, Option.map_none', Option.none_orElse] at h
        by_cases hx : x = c
        · rw [if_pos hx] at h
          cases h
          omega
        · rw [if_neg hx] at h
          cases h
      · rw [hr, Option.map_some', Option.some_orElse] at h
        cases h
        have := ih m j hr
        omega

theorem computeSplitAt_le (maxLength : Nat) (remaining : List Char) :
    computeSplitAt maxLength remaining ≤ maxLength := by
  unfold computeSplitAt
  rcases h1 : jsLastIndexOf '\n' remaining maxLength with _ | i
  · simp only [h1]
    rcases h2 : jsLastIndexOf ' ' remaining maxLength with _ | j
    · simp only [h2]
      omega
    · simp only [h2]
      have := jsLastIndexOf_le ' ' remaining maxLength j h2
      split <;> omega
  · simp only [h1]
    by_cases hc : 2 * i < maxLength
    · simp only [if_pos hc]
      rcases h2 : jsLastIndexOf ' ' remaining maxLength with _ | j
      · simp only [h2]
        omega
      · simp only [h2]
        have := jsLastIndexOf_le ' ' remaining maxLength j h2
        split <;> omega
    · simp only [if_neg hc]
      have hi := jsLastIndexOf_le '\n' remaining maxLength i h1
      omega

theorem computeSplitAt_ge_half (maxLength : Nat) (remaining : List Char)
    (h : 1 ≤ maxLength) :
    max 1 (maxLength / 2) ≤ computeSplitAt maxLength remaining := by
  unfold computeSplitAt
  rcases h1 : jsLastIndexOf '\n' remaining maxLength with _ | i
  · simp only [h1]
    rcases h2 : jsLastIndexOf ' ' remaining maxLength with _ | j
    · simp only [h2]
      omega
    · simp only [h2]
      split <;> omega
  · simp only [h1]
    by_cases hc : 2 * i < maxLength
    · simp only [if_pos hc]
      rcases h2 : jsLastIndexOf ' ' remaining maxLength with _ | j
      · simp only [h2]
        omega
      · simp only [h2]
        split <;> omega
    · simp only [if_neg hc]
      omega

theorem computeSplitAt_pos (maxLength : Nat) (remaining : List Char)
    (h : 1 ≤ maxLength) : 1 ≤ computeSplitAt maxLength remaining :=
  le_trans (le_max_left 1 (maxLength / 2))
    (computeSplitAt_ge_half maxLength remaining h)

theorem length_dropWhile_le (p : Char → Bool) (l : List Char) :
    (l.dropWhile p).length ≤ l.length := by
  induction l with
  | nil => simp
  | cons x xs ih =>
    rw [List.dropWhile_cons]
    split
    · exact le_trans ih (by simp)
    · simp

theorem chunkLoop_step (maxLength fuel : Nat) (remaining : List Char)
    (h0 : remaining.length ≠ 0) (h1 : ¬ remaining.length ≤ maxLength) :
    chunkLoop maxLength (fuel + 1) remaining =
      (chunkLoop maxLength fuel
          (jsTrimStart (remaining.drop (computeSplitAt maxLength remaining)))).map
        (fun cs => remaining.take (computeSplitAt maxLength remaining) :: cs) := by
  rw [chunkLoop.eq_def]
  simp [h0, h1]

theorem chunkLoop_last (maxLength fuel : Nat) (remaining : List Char)
    (h0 : remaining.length ≠ 0) (h1 : remaining.length ≤ maxLength) :
    chunkLoop maxLength fuel remaining = some [remaining] := by
  rw [chunkLoop.eq_def]
  simp [h0, h1]

theorem chunkLoop_nil (maxLength fuel : Nat) :
    chunkLoop maxLength fuel [] = some [] := by
  rw [chunkLoop.eq_def]
  simp

theorem chunkLoop_lengths (maxLength : Nat) :
    ∀ (fuel : Nat) (remaining : List Char) (cs : List (List Char)),
      chunkLoop maxLength fuel remaining = some cs →
      ∀ c ∈ cs, c.length ≤ maxLength := by
  intro fuel
  induction fuel with
  | zero =>
    intro remaining cs h c hc
    rw [chunkLoop.eq_def] at h
    by_cases h0 : remaining.length = 0
    · rw [if_pos h0] at h
      cases h
      simp at hc
    · rw [if_neg h0] at h
      by_cases h1 : remaining.length ≤ maxLength
      · rw [if_pos h1] at h
        cases h
        simp at hc
        subst hc
        exact h1
      · rw [if_neg h1] at h
        cases h
  | succ n ih =>
    intro remaining cs h c hc
    by_cases h0 : remaining.length = 0
    · rw [chunkLoop.eq_def, if_pos h0] at h
      cases h
      simp at hc
    · by_cases h1 : remaining.length ≤ maxLength
      · rw [chunkLoop_last maxLength (n + 1) remaining h0 h1] at h
        cases h
        simp at hc
        subst hc
        exact h1
      · rw [chunkLoop_step maxLength n remaining h0 h1] at h
        rw [Option.map_eq_some'] at h
        obtain ⟨cs', hcs', hcons⟩ := h
        subst hcons
        rcases List.mem_cons.mp hc with hc | hc
        · subst hc
          calc (remaining.take (computeSplitAt maxLength remaining)).length
              ≤ computeSplitAt maxLength remaining := by
                rw [List.length_take]
                omega
            _ ≤ maxLength := computeSplitAt_le maxLength remaining
        · exact ih _ cs' hcs' c hc

theorem chunkLoop_total (maxLength : Nat) (hm : 1 ≤ maxLength) :
    ∀ (fuel : Nat) (remaining : List Char), remaining.length ≤ fuel →
      (chunkLoop maxLength fuel remaining).isSome = true := by
  intro fuel
  induction fuel with
  | zero =>
    intro remaining hf
    have h0 : remaining.length = 0 := Nat.le_zero.mp hf
    rw [chunkLoop.eq_def, if_pos h0]
    rfl
  | succ n ih =>
    intro remaining hf
    by_cases h0 : remaining.length = 0
    · rw [chunkLoop.eq_def, if_pos h0]
      rfl
    · by_cases h1 : remaining.length ≤ maxLength
      · rw [chunkLoop_last maxLength (n + 1) remaining h0 h1]
        rfl
      · rw [chunkLoop_step maxLength n remaining h0 h1]
        have hrec : (chunkLoop maxLength n
            (jsTrimStart (remaining.drop
              (computeSplitAt maxLength remaining)))).isSome = true := by
          refine ih _ ?_
          have hs1 := computeSplitAt_pos maxLength remaining hm
          have hdl : (remaining.drop (computeSplitAt maxLength remaining)).length =
              remaining.length - computeSplitAt maxLength remaining :=
            List.length_drop _ _
          have := length_dropWhile_le isJSWhitespace
            (remaining.drop (computeSplitAt maxLength remaining))
          unfold jsTrimStart
          omega
        rcases Option.isSome_iff_exists.mp hrec with ⟨v, hv⟩
        rw [hv]
        rfl

theorem chunkLoop_reconstructs (maxLength : Nat) :
    ∀ (fuel : Nat) (remaining : List Char) (cs : List (List Char)),
      chunkLoop maxLength fuel remaining = some cs → Reconstructs remaining cs := by
  intro fuel
  induction fuel with
  | zero =>
    intro remaining cs h
    rw [chunkLoop.eq_def] at h
    by_cases h0 : remaining.length = 0
    · rw [if_pos h0] at h
      cases h
      simp only [Reconstructs]
      exact List.length_eq_zero.mp h0
    · rw [if_neg h0] at h
      by_cases h1 : remaining.length ≤ maxLength
      · rw [if_pos h1] at h
        cases h
        exact ⟨[], [], by simp, by simp, rfl⟩
      · rw [if_neg h1] at h
        cases h
  | succ n ih =>
    intro remaining cs h
    by_cases h0 : remaining.length = 0
    · rw [chunkLoop.eq_def, if_pos h0] at h
      cases h
      simp only [Reconstructs]
      exact List.length_eq_zero.mp h0
    · by_cases h1 : remaining.length ≤ maxLength
      · rw [chunkLoop_last maxLength (n + 1) remaining h0 h1] at h
        cases h
        exact ⟨[], [], by simp, by simp, rfl⟩
      · rw [chunkLoop_step maxLength n remaining h0 h1] at h
        rw [Option.map_eq_some'] at h
        obtain ⟨cs', hcs', hcons⟩ := h
        subst hcons
        refine ⟨(remaining.drop (computeSplitAt maxLength remaining)).takeWhile
            isJSWhitespace,
          jsTrimStart (remaining.drop (computeSplitAt maxLength remaining)),
          ?_, ?_, ih _ cs' hcs'⟩
        · intro x hx
          exact List.mem_takeWhile_imp hx
        · rw [List.append_assoc]
          unfold jsTrimStart
          rw [List.takeWhile_append_dropWhile]
          exact (List.take_append_drop _ remaining).symm

/-- C5. For every text and limit of at least one character,
`chunkGoogleChatText` returns a chunk list in which every chunk has
length at most the limit; a text no longer than the limit yields
exactly one chunk equal to the input; and the chunks, with the
whitespace trimmed at each chunk boundary re-inserted, reproduce the
original text losslessly. -/
theorem chunkGoogleChatText_spec (text : List Char) (maxLength : Nat)
    (h : 1 ≤ maxLength) :
    ∃ cs, chunkGoogleChatText text maxLength = some cs ∧
      (∀ c ∈ cs, c.length ≤ maxLength) ∧
      (text.length ≤ maxLength → cs = [text]) ∧
      Reconstructs text cs := by
  unfold chunkGoogleChatText
  by_cases hle : text.length ≤ maxLength
  · refine ⟨[text], by rw [if_pos hle], ?_, fun _ => rfl, ?_⟩
    · intro c hc
      simp at hc
      subst hc
      exact hle
    · exact ⟨[], [], by simp, by simp, rfl⟩
  · rw [if_neg hle]
    have htot := chunkLoop_total maxLength h (text.length + 1) text (by omega)
    rcases Option.isSome_iff_exists.mp htot with ⟨cs, hcs⟩
    exact ⟨cs, hcs, chunkLoop_lengths maxLength _ text cs hcs,
      fun hc => absurd hc hle, chunkLoop_reconstructs maxLength _ text cs hcs⟩

/-- C5 witness: the specification evaluated on the two-character
input with the default limit. -/
theorem chunkGoogleChatText_spec_witness :
    ∃ cs, chunkGoogleChatText (str "hi") 4000 = some cs ∧
      (∀ c ∈ cs, c.length ≤ 4000) ∧
      ((str "hi").length ≤ 4000 → cs = [str "hi"]) ∧
      Reconstructs (str "hi") cs :=
  chunkGoogleChatText_spec (str "hi") 4000 (by omega)

/-- C9. For every limit of at least one character the chunking loop
terminates: whenever the remaining text exceeds the limit the chosen
split index is at least `max 1 (maxLength / 2)`, each iteration
strictly shortens the unprocessed remainder, and the function returns
a finite chunk list on every input. -/
theorem chunkGoogleChatText_terminates (text : List Char) (maxLength : Nat)
    (h : 1 ≤ maxLength) :
    (∀ remaining : List Char, maxLength < remaining.length →
      max 1 (maxLength / 2) ≤ computeSplitAt maxLength remaining ∧
      (jsTrimStart (remaining.drop
        (computeSplitAt maxLength remaining))).length < remaining.length) ∧
    (chunkGoogleChatText text maxLength).isSome = true := by
  constructor
  · intro remaining hrem
    refine ⟨computeSplitAt_ge_half maxLength remaining h, ?_⟩
    have hs1 := computeSplitAt_pos maxLength remaining h
    have hdl : (remaining.drop (computeSplitAt maxLength remaining)).length =
        remaining.length - computeSplitAt maxLength remaining :=
      List.length_drop _ _
    have := length_dropWhile_le isJSWhitespace
      (remaining.drop (computeSplitAt maxLength remaining))
    unfold jsTrimStart
    omega
  · unfold chunkGoogleChatText
    by_cases hle : text.length ≤ maxLength
    · rw [if_pos hle]
      rfl
    · rw [if_neg hle]
      exact chunkLoop_total maxLength h (text.length + 1) text (by omega)

/-- C9 witness: termination evaluated at limit one on a
two-character input. -/
theorem chunkGoogleChatText_terminates_witness :
    (chunkGoogleChatText (str "ab") 1).isSome = true :=
  (chunkGoogleChatText_terminates (str "ab") 1 (by omega)).2

theorem jsLastIndexOf_none_of_not_mem (c : Char) :
    ∀ (s : List Char), c ∉ s → ∀ n, jsLastIndexOf c s n = none := by
  intro s
  induction s with
  | nil =>
    intro _ n
    rfl
  | cons x xs ih =>
    intro hmem n
    have hx : ¬(x = c) := fun he => hmem (he ▸ List.mem_cons_self x xs)
    simp only [jsLastIndexOf]
    rcases n with _ | m
    · rw [if_pos rfl, Option.none_orElse, if_neg hx]
    · rw [if_neg (Nat.succ_ne_zero m), Nat.add_sub_cancel,
        ih (fun hc => hmem (List.mem_cons_of_mem x hc)) m, Option.map_none',
        Option.none_orElse, if_neg hx]

theorem jsLastIndexOf_append_of_not_mem (c : Char) (q : List Char)
    (hq : c ∉ q) :
    ∀ (p : List Char) (n : Nat),
      jsLastIndexOf c (p ++ q) n = jsLastIndexOf c p n := by
  intro p
  induction p with
  | nil =>
    intro n
    rw [List.nil_append, jsLastIndexOf_none_of_not_mem c q hq n]
    rfl
  | cons x xs ih =>
    intro n
    rw [List.cons_append]
    simp only [jsLastIndexOf]
    rcases n with _ | m
    · rfl
    · rw [if_neg (Nat.succ_ne_zero m), if_neg (Nat.succ_ne_zero m),
        Nat.add_sub_cancel, ih m]

theorem dropWhile_replicate_neg (p : Char → Bool) (n : Nat) (a : Char)
    (h : p a = false) :
    List.dropWhile p (List.replicate n a) = List.replicate n a := by
  cases n with
  | zero => rfl
  | succ m =>
    rw [List.replicate_succ, List.dropWhile_cons, h]
    simp

theorem c6_length : c6Input.length = 5018 := by
  unfold c6Input
  rw [List.length_append, List.length_replicate]
  norm_num [show (str "line one\nline two\n").length = 18 from rfl]

theorem c6_lastNewline : jsLastIndexOf '\n' c6Input 4000 = some 17 := by
  unfold c6Input
  rw [jsLastIndexOf_append_of_not_mem '\n' (List.replicate 5000 'x')
    (fun hmem => absurd (List.mem_replicate.mp hmem).2 (by decide))]
  decide

theorem c6_lastSpace : jsLastIndexOf ' ' c6Input 4000 = some 13 := by
  unfold c6Input
  rw [jsLastIndexOf_append_of_not_mem ' ' (List.replicate 5000 'x')
    (fun hmem => absurd (List.mem_replicate.mp hmem).2 (by decide))]
  decide

theorem computeSplitAt_hard_of (maxLength : Nat) (remaining : List Char)
    (i j : Nat)
    (h1 : jsLastIndexOf '\n' remaining maxLength = some i)
    (h2 : jsLastIndexOf ' ' remaining maxLength = some j)
    (hi : 2 * i < maxLength) (hj : 2 * j < maxLength) :
    computeSplitAt maxLength remaining = maxLength := by
  simp only [computeSplitAt, h1, if_pos hi, h2, if_pos hj]

theorem c6_split : computeSplitAt 4000 c6Input = 4000 :=
  computeSplitAt_hard_of 4000 c6Input 17 13 c6_lastNewline c6_lastSpace
    (by omega) (by omega)

theorem c6_take : c6Input.take 4000 = c6Chunk1 := by
  unfold c6Input c6Chunk1
  rw [List.take_append_eq_append_take,
    List.take_of_length_le (by decide : (str "line one\nline two\n").length ≤ 4000),
    List.take_replicate]
  norm_num [show (str "line one\nline two\n").length = 18 from rfl]

theorem c6_drop : c6Input.drop 4000 = List.replicate 1018 'x' := by
  unfold c6Input
  rw [List.drop_append_eq_append_drop,
    List.drop_eq_nil_of_le (by decide : (str "line one\nline two\n").length ≤ 4000),
    List.drop_replicate]
  norm_num [show (str "line one\nline two\n").length = 18 from rfl]

theorem c6_compute : chunkGoogleChatText c6Input 4000 = some [c6Chunk1, c6Chunk2] := by
  unfold chunkGoogleChatText
  rw [if_neg (by rw [c6_length]; omega), c6_length,
    chunkLoop_step 4000 5018 c6Input (by rw [c6_length]; omega)
      (by rw [c6_length]; omega),
    c6_split, c6_drop]
  unfold jsTrimStart
  rw [dropWhile_replicate_neg isJSWhitespace 1018 'x' rfl,
    chunkLoop_last 4000 5018 (List.replicate 1018 'x')
      (by rw [List.length_replicate]; omega)
      (by rw [List.length_replicate]; omega),
    Option.map_some', c6_take]
  rfl

/-- C6 (amended). On the input `"line one\nline two\n" +
"x".repeat(5000)` with limit 4000 the code performs a hard split at
offset 4000 — the last newline lies at offset 17, before half the
limit, so the newline (and space) candidates are rejected — and both
lines are still intact in the first chunk, which begins with
`"line one\nline two\n"`. -/
theorem chunkGoogleChatText_example_hard_split :
    chunkGoogleChatText c6Input 4000 = some [c6Chunk1, c6Chunk2] ∧
    jsLastIndexOf '\n' c6Input 4000 = some 17 ∧
    computeSplitAt 4000 c6Input = 4000 ∧
    (str "line one\nline two\n").isPrefixOf c6Chunk1 = true := by
  refine ⟨c6_compute, c6_lastNewline, c6_split, ?_⟩
  unfold c6Chunk1
  rw [List.isPrefixOf_iff_prefix]
  exact List.prefix_append _ _

/-- C6 counterexample: the claim predicts a split at the last
newline before offset 4000, i.e. a first chunk equal to the first 17
characters `"line one\nline two"`; the first chunk the code produces
is not that (it is 4000 characters long). -/
theorem chunkGoogleChatText_example_cex :
    (chunkGoogleChatText c6Input 4000).bind List.head? ≠
      some (c6Input.take 17) := by
  rw [c6_compute]
  intro h
  have heq : c6Chunk1 = c6Input.take 17 := Option.some.inj h
  have h1 : c6Chunk1.length = 4000 := by
    unfold c6Chunk1
    rw [List.length_append, List.length_replicate]
    norm_num [show (str "line one\nline two\n").length = 18 from rfl]
  have h2 : (c6Input.take 17).length = 17 := by
    rw [List.length_take, c6_length]
    omega
  rw [heq, h2] at h1
  exact absurd h1 (by norm_num)
